import Mathlib

/-!
Verification of the versioned configuration store in
`config_parser_versioned_rollback.py` (repository `auto_config_tasks`).

The Python program parses a YAML configuration file into a nested value,
normalizes numeric-looking strings (`convert_numeric_values`), stores
immutable version records in a MongoDB collection (`save_to_mongo`,
`rollback_to_version`, `fetch_latest_from_mongo`, `fetch_all_versions`),
and reacts to file-change events (`ConfigFileHandler.on_modified`).

This file shallow-embeds those functions:
  * a parsed YAML document becomes the inductive `Value`;
  * the MongoDB collection becomes a `Store` (a list of `VersionRecord`s
    in insertion order); the collection-level operations the program uses
    (`find_one` on a filter, `find_one` sorted by version descending,
    `insert_one`) become pure functions on `Store`;
  * exceptions from an unreachable backend are modeled with an explicit
    `available : Bool` argument: when it is `false` every body raises and
    the corresponding `except` clause of the Python function runs;
  * `datetime.utcnow()` and the success of the on-disk file write in
    `rollback_to_version` are external inputs, passed as parameters;
  * a Python function's observable outcome (its return value together
    with the message it prints) is reified as a result type.
-/

/-- A parsed YAML value, as produced by `yaml.safe_load`: nested string-keyed
mappings with string / integer scalars and sequences.  Mapping entries are
kept in insertion order, and equality of `Value`s is structural equality of
the ordered entry lists, which is exactly how MongoDB's `find_one({"config":
data})` filter compares an embedded document. -/
inductive Value where
  | str : String → Value
  | int : Int → Value
  | list : List Value → Value
  | dict : List (String × Value) → Value

mutual
/-- Structural equality of values (deep equality of nested documents). -/
def Value.beq : Value → Value → Bool
  | .str a, .str b => a == b
  | .int a, .int b => a == b
  | .list a, .list b => Value.beqList a b
  | .dict a, .dict b => Value.beqEntries a b
  | _, _ => false

/-- Elementwise structural equality of value sequences. -/
def Value.beqList : List Value → List Value → Bool
  | [], [] => true
  | a :: as, b :: bs => Value.beq a b && Value.beqList as bs
  | _, _ => false

/-- Entrywise structural equality of mapping entry lists. -/
def Value.beqEntries : List (String × Value) → List (String × Value) → Bool
  | [], [] => true
  | (k, v) :: as, (k', v') :: bs => k == k' && Value.beq v v' && Value.beqEntries as bs
  | _, _ => false
end

mutual
theorem Value.beq_iff : ∀ a b : Value, Value.beq a b = true ↔ a = b
  | .str _, .str _ => by simp [Value.beq]
  | .str _, .int _ => by simp [Value.beq]
  | .str _, .list _ => by simp [Value.beq]
  | .str _, .dict _ => by simp [Value.beq]
  | .int _, .str _ => by simp [Value.beq]
  | .int _, .int _ => by simp [Value.beq]
  | .int _, .list _ => by simp [Value.beq]
  | .int _, .dict _ => by simp [Value.beq]
  | .list _, .str _ => by simp [Value.beq]
  | .list _, .int _ => by simp [Value.beq]
  | .list a, .list b => by
      have h := Value.beqList_iff a b
      simp [Value.beq, h]
  | .list _, .dict _ => by simp [Value.beq]
  | .dict _, .str _ => by simp [Value.beq]
  | .dict _, .int _ => by simp [Value.beq]
  | .dict _, .list _ => by simp [Value.beq]
  | .dict a, .dict b => by
      have h := Value.beqEntries_iff a b
      simp [Value.beq, h]

theorem Value.beqList_iff : ∀ a b : List Value, Value.beqList a b = true ↔ a = b
  | [], [] => by simp [Value.beqList]
  | [], _ :: _ => by simp [Value.beqList]
  | _ :: _, [] => by simp [Value.beqList]
  | a :: as, b :: bs => by
      have h1 := Value.beq_iff a b
      have h2 := Value.beqList_iff as bs
      simp [Value.beqList, h1, h2]

theorem Value.beqEntries_iff : ∀ a b : List (String × Value), Value.beqEntries a b = true ↔ a = b
  | [], [] => by simp [Value.beqEntries]
  | [], _ :: _ => by simp [Value.beqEntries]
  | _ :: _, [] => by simp [Value.beqEntries]
  | (k, v) :: as, (k', v') :: bs => by
      have h1 := Value.beq_iff v v'
      have h2 := Value.beqEntries_iff as bs
      simp [Value.beqEntries, h1, h2, and_assoc]
end

instance : DecidableEq Value := fun a b => decidable_of_iff _ (Value.beq_iff a b)

/-- Python truthiness (`if data:`) for the values above: empty strings,
zero, empty sequences and empty mappings are falsy. -/
def Value.truthy : Value → Bool
  | .str s => !s.isEmpty
  | .int n => n != 0
  | .list l => !l.isEmpty
  | .dict kvs => !kvs.isEmpty

mutual
/-- `convert_numeric_values` (config_parser_versioned_rollback.py lines
57-64): if the value is a mapping, rewrite each entry — a nested mapping is
converted recursively, a string consisting of digits (Python `str.isdigit`)
is replaced by its integer value (`int(v)`), everything else (including
sequences) is left unchanged; a non-mapping value is returned as is.  The
Python function mutates its argument in place and returns it; the embedding
returns the converted value. -/
def convert_numeric_values : Value → Value
  | .dict kvs => .dict (convertEntries kvs)
  | v => v

/-- One pass of the `for k, v in data.items()` loop of
`convert_numeric_values` over the entry list of a mapping. -/
def convertEntries : List (String × Value) → List (String × Value)
  | [] => []
  | (k, v) :: rest =>
    (match v with
     | .dict kvs => (k, Value.dict (convertEntries kvs))
     | .str s => if s.isNat then (k, Value.int (s.toNat?.getD 0)) else (k, Value.str s)
     | v => (k, v)) :: convertEntries rest
end

theorem convertEntries_idem :
    ∀ l, convertEntries (convertEntries l) = convertEntries l
  | [] => by simp [convertEntries]
  | (k, v) :: rest => by
    cases v with
    | dict kvs =>
      have h1 := convertEntries_idem kvs
      have h2 := convertEntries_idem rest
      simp [convertEntries, h1, h2]
    | str s =>
      have h2 := convertEntries_idem rest
      by_cases hs : s.isNat
      · simp [convertEntries, hs, h2]
      · simp [convertEntries, hs, h2]
    | int n =>
      have h2 := convertEntries_idem rest
      simp [convertEntries, h2]
    | list l =>
      have h2 := convertEntries_idem rest
      simp [convertEntries, h2]
termination_by l => sizeOf l
decreasing_by all_goals (simp_wf; try omega)

/-- C7: Normalization is idempotent: converting numeric-looking strings is
a no-op on an already converted document, because converted entries are
integers (never reconsidered), unconverted strings stay non-numeric, and
nested mappings are handled recursively while sequences and other scalars
pass through unchanged. -/
theorem convert_numeric_values_idem (d : Value) :
    convert_numeric_values (convert_numeric_values d) = convert_numeric_values d := by
  cases d with
  | dict kvs => simp [convert_numeric_values, convertEntries_idem]
  | str s => rfl
  | int n => rfl
  | list l => rfl

/-- One MongoDB document of the `config_data` collection: the version
number, the creation instant (`datetime.utcnow()`, modeled as an opaque
natural tick), the configuration snapshot, and — for records inserted by
`rollback_to_version` — the version rolled back from. -/
structure VersionRecord where
  version : Nat
  timestamp : Nat
  config : Value
  rolled_back_from : Option Nat
deriving DecidableEq

/-- The `config_data` collection, in insertion (natural) order. -/
abbrev Store := List VersionRecord

/-- `collection.find_one({"config": data})`: the first document in natural
order whose `config` field equals `data`. -/
def findConfig (s : Store) (d : Value) : Option VersionRecord :=
  List.find? (fun r => r.config == d) s

/-- `collection.find_one({"version": v})`: the first document in natural
order whose `version` field equals `v`. -/
def findVersion (s : Store) (v : Nat) : Option VersionRecord :=
  List.find? (fun r => r.version == v) s

/-- Fold step selecting the document with the larger version, keeping the
earlier one on ties — the first document of a stable descending sort. -/
def pickLater (acc : Option VersionRecord) (r : VersionRecord) : Option VersionRecord :=
  match acc with
  | none => some r
  | some m => if r.version > m.version then some r else some m

/-- `collection.find_one(sort=[("version", -1)])`: the document with the
highest version number, or `none` on an empty collection. -/
def findLastDoc (s : Store) : Option VersionRecord :=
  List.foldl pickLater none s

/-- The largest version number present in the collection (`0` if empty);
specification-side companion of `findLastDoc`. -/
def maxVersion (s : Store) : Nat :=
  List.foldr (fun r n => max r.version n) 0 s

/-- The `next_version` computation shared verbatim by `save_to_mongo`
(lines 83-84) and `rollback_to_version` (lines 145-146):
`1 if not last_doc else last_doc['version'] + 1`. -/
def nextVersion (s : Store) : Nat :=
  match findLastDoc s with
  | none => 1
  | some d => d.version + 1

/-- Observable outcome of `save_to_mongo` (its Python return value is
always `None`; the branch taken is observable through the message printed
and the collection mutation):
  * `dedupHit existing` — "Configuration already exists in MongoDB
    (version existing.version). No new version created."; nothing inserted;
  * `inserted newRec` — "Configuration saved to MongoDB (version
    newRec.version)"; `newRec` inserted;
  * `storageError` — the `except` clause ran ("Error saving to
    MongoDB: ..."); nothing inserted. -/
inductive SaveOutcome where
  | dedupHit (existing : VersionRecord)
  | inserted (newRec : VersionRecord)
  | storageError
deriving DecidableEq

/-- `save_to_mongo(data)` (lines 69-94).  When the backend is available:
look for any document whose `config` equals `data`; on a hit return with no
write; otherwise insert a document with version `next_version`, the current
timestamp `t`, `config = data` and no `rolled_back_from` field.  When the
backend is unavailable every collection call raises, the `except` clause
prints the error and the function returns with the collection untouched. -/
def save_to_mongo (available : Bool) (s : Store) (t : Nat) (data : Value) :
    Store × SaveOutcome :=
  if available then
    match findConfig s data with
    | some existing => (s, .dedupHit existing)
    | none =>
      let doc : VersionRecord :=
        { version := nextVersion s, timestamp := t, config := data, rolled_back_from := none }
      (s ++ [doc], .inserted doc)
  else
    (s, .storageError)

/-- `datetime.isoformat()` of the opaque timestamp tick: an external,
injective rendering of the creation instant; its exact format is the
datetime library's concern, modeled as decimal rendering. -/
def isoformat (t : Nat) : String := toString t

/-- `fetch_latest_from_mongo()` (lines 96-112): with an available backend,
the JSON payload `{"version": .., "timestamp": .., "config": ..}` built
from the highest-version document, or `{}` if the collection is empty.
When the backend raises, the `except` clause prints the error and returns
`{}` as well. -/
def fetch_latest_from_mongo (available : Bool) (s : Store) : Value :=
  if available then
    match findLastDoc s with
    | some d =>
      .dict [("version", .int d.version), ("timestamp", .str (isoformat d.timestamp)),
             ("config", d.config)]
    | none => .dict []
  else
    .dict []

/-- One element of the list built by `fetch_all_versions()` (lines
120-127): unlike the latest-payload, it carries
`doc.get("rolled_back_from", None)`, rendered as a fourth field whose value
is the referenced version or `None` (modeled as `Option Nat`). -/
structure HistoryEntry where
  version : Nat
  timestamp : String
  config : Value
  rolled_back_from : Option Nat
deriving DecidableEq

/-- `fetch_all_versions()` (lines 114-131): with an available backend, the
documents sorted by ascending version, each rendered as a `HistoryEntry`;
on a backend error, the `except` clause prints and returns `[]`.  The
collection is kept sorted-equivalent by insertion order (versions are
assigned increasingly), and `find().sort("version", 1)` is a stable
ascending sort, modeled with `List.mergeSort` on version. -/
def fetch_all_versions (available : Bool) (s : Store) : List HistoryEntry :=
  if available then
    (List.mergeSort s (fun a b => a.version ≤ b.version)).map
      (fun d => ⟨d.version, isoformat d.timestamp, d.config, d.rolled_back_from⟩)
  else
    []

/-- Outcome of `rollback_to_version(version)` (lines 133-163), bundling the
collection after the call, the on-disk config file content after the call
(`none` while nothing was ever written), and the `(success, message)` pair
the function returns. -/
structure RollbackResult where
  store : Store
  file : Option Value
  success : Bool
  message : String
deriving DecidableEq

/-- `rollback_to_version(version)` (lines 133-163).  Look up the target
version; if absent return `(False, "Version v not found.")` with nothing
changed.  Otherwise insert a new document carrying the target's `config`,
`rolled_back_from = version` and the next sequential version number — no
dedup check runs on this path — then overwrite the YAML file with the
target's config.  `writeOk` says whether that external write succeeds; when
it raises, the `except` clause returns `(False, str(e))` (the exception
text `emsg`), but the insert has already happened.  `file` is the on-disk
content before the call and `t` the current timestamp. -/
def rollback_to_version (available : Bool) (s : Store) (file : Option Value)
    (t : Nat) (writeOk : Bool) (emsg : String) (version : Nat) : RollbackResult :=
  if available then
    match findVersion s version with
    | none => ⟨s, file, false, "Version " ++ toString version ++ " not found."⟩
    | some doc =>
      let rollbackDoc : VersionRecord :=
        { version := nextVersion s, timestamp := t, config := doc.config,
          rolled_back_from := some version }
      let s' := s ++ [rollbackDoc]
      if writeOk then
        ⟨s', some doc.config, true,
         "Rolled back to version " ++ toString version ++ " as new version " ++
           toString rollbackDoc.version ++ " and updated config.yaml"⟩
      else
        ⟨s', file, false, emsg⟩
  else
    ⟨s, file, false, emsg⟩

/-- `read_config(file_path)` (lines 45-55).  The input is the result of
`yaml.safe_load` on the file (`none` when reading or parsing raised).  A
non-mapping top level is reported and dropped (`return None`); a mapping is
returned. -/
def read_config (parsed : Option Value) : Option Value :=
  match parsed with
  | some (Value.dict kvs) => some (.dict kvs)
  | _ => none

/-- `ConfigFileHandler.on_modified(event)` (lines 168-175).  When the event
path matches the watched config file, read and parse the file; only when
the parsed value is truthy (`if data:`) is it normalized and saved.  The
result is the collection after the event and the outcome of the save
(`none` when no save was attempted). -/
def on_modified (available : Bool) (pathMatches : Bool) (parsed : Option Value)
    (s : Store) (t : Nat) : Store × Option SaveOutcome :=
  if pathMatches then
    match read_config parsed with
    | some data =>
      if data.truthy then
        let res := save_to_mongo available s t (convert_numeric_values data)
        (res.1, some res.2)
      else (s, none)
    | none => (s, none)
  else (s, none)

theorem maxVersion_nil : maxVersion [] = 0 := rfl

theorem maxVersion_cons (r : VersionRecord) (s : Store) :
    maxVersion (r :: s) = max r.version (maxVersion s) := rfl

theorem version_le_maxVersion (s : Store) : ∀ r ∈ s, r.version ≤ maxVersion s := by
  induction s with
  | nil => simp
  | cons x s ih =>
    intro r hr
    rw [maxVersion_cons]
    rcases List.mem_cons.mp hr with h | h
    · subst h; exact Nat.le_max_left _ _
    · exact le_trans (ih r h) (Nat.le_max_right _ _)

theorem foldl_pickLater_some (s : Store) :
    ∀ m : VersionRecord, ∃ d, List.foldl pickLater (some m) s = some d ∧
      d.version = max m.version (maxVersion s) ∧ (d = m ∨ d ∈ s) := by
  induction s with
  | nil =>
    intro m
    exact ⟨m, rfl, by simp [maxVersion_nil], Or.inl rfl⟩
  | cons r s ih =>
    intro m
    obtain ⟨d, hfold, hver, hmem⟩ := ih (if r.version > m.version then r else m)
    have hp : pickLater (some m) r = some (if r.version > m.version then r else m) := by
      simp only [pickLater]
      by_cases h : r.version > m.version <;> simp [h]
    refine ⟨d, ?_, ?_, ?_⟩
    · rw [List.foldl_cons, hp]; exact hfold
    · rw [hver, maxVersion_cons]
      by_cases h : r.version > m.version
      · rw [if_pos h]
        exact (Nat.max_eq_right (le_trans (Nat.le_of_lt h) (Nat.le_max_left _ _))).symm
      · rw [if_neg h, ← Nat.max_assoc, Nat.max_eq_left (Nat.le_of_not_lt h)]
    · rcases hmem with hd | hd
      · by_cases h : r.version > m.version
        · right; rw [hd]; simp [h]
        · left; rw [hd]; simp [h]
      · right; exact List.mem_cons_of_mem _ hd

theorem findLastDoc_nil : findLastDoc ([] : Store) = none := rfl

theorem findLastDoc_spec (s : Store) (hs : s ≠ []) :
    ∃ d, findLastDoc s = some d ∧ d ∈ s ∧ d.version = maxVersion s := by
  cases s with
  | nil => exact absurd rfl hs
  | cons r s =>
    obtain ⟨d, hfold, hver, hmem⟩ := foldl_pickLater_some s r
    refine ⟨d, ?_, ?_, ?_⟩
    · simpa [findLastDoc, pickLater] using hfold
    · rcases hmem with hd | hd
      · rw [hd]; exact List.mem_cons_self r s
      · exact List.mem_cons_of_mem _ hd
    · rw [hver, maxVersion_cons]

theorem nextVersion_eq_maxVersion_succ (s : Store) :
    nextVersion s = maxVersion s + 1 := by
  cases s with
  | nil => rfl
  | cons r s =>
    obtain ⟨d, hfind, _, hver⟩ := findLastDoc_spec (r :: s) (by simp)
    simp [nextVersion, hfind, hver]

theorem nextVersion_nil : nextVersion ([] : Store) = 1 := rfl

theorem maxVersion_append_singleton (s : Store) (r : VersionRecord) :
    maxVersion (s ++ [r]) = max (maxVersion s) r.version := by
  induction s with
  | nil => simp [maxVersion_cons, maxVersion_nil]
  | cons x s ih =>
    rw [List.cons_append, maxVersion_cons, ih, maxVersion_cons, Nat.max_assoc]

theorem findConfig_eq_none_iff (s : Store) (d : Value) :
    findConfig s d = none ↔ ∀ r ∈ s, r.config ≠ d := by
  simp [findConfig, List.find?_eq_none]

theorem findConfig_append_singleton_of_none (s : Store) (d : Value)
    (h : findConfig s d = none) (r : VersionRecord) (hr : r.config = d) :
    findConfig (s ++ [r]) d = some r := by
  rw [findConfig, List.find?_append]
  rw [findConfig] at h
  rw [h]
  simp [List.find?, hr]

theorem findConfig_some_config (s : Store) (d : Value) (r : VersionRecord)
    (h : findConfig s d = some r) : r.config = d := by
  rw [findConfig] at h
  have hp := List.find?_some h
  simpa using hp

theorem findConfig_some_mem (s : Store) (d : Value) (r : VersionRecord)
    (h : findConfig s d = some r) : r ∈ s := by
  rw [findConfig] at h
  exact List.mem_of_find?_eq_some h

theorem save_to_mongo_dedup (s : Store) (t : Nat) (d : Value) (r : VersionRecord)
    (h : findConfig s d = some r) :
    save_to_mongo true s t d = (s, .dedupHit r) := by
  simp [save_to_mongo, h]

theorem save_to_mongo_insert (s : Store) (t : Nat) (d : Value)
    (h : findConfig s d = none) :
    save_to_mongo true s t d =
      (s ++ [⟨nextVersion s, t, d, none⟩], .inserted ⟨nextVersion s, t, d, none⟩) := by
  simp [save_to_mongo, h]

/-- A burst of file-change events replayed in order: fold `save_to_mongo`
over the normalized documents, threading the collection. -/
def runSaves (s : Store) (t : Nat) : List Value → Store
  | [] => s
  | d :: rest => runSaves (save_to_mongo true s t d).1 t rest

theorem runSaves_versions (t : Nat) :
    ∀ (docs : List Value) (s : Store),
      s.map (fun r => r.version) = (List.range s.length).map (· + 1) →
      maxVersion s = s.length →
      (∀ d ∈ docs, ∀ r ∈ s, r.config ≠ d) →
      docs.Nodup →
      (runSaves s t docs).map (fun r => r.version)
        = (List.range (s.length + docs.length)).map (· + 1)
  | [], s, hseq, _, _, _ => by simpa [runSaves] using hseq
  | d :: rest, s, hseq, hmax, hdis, hnd => by
    have hnone : findConfig s d = none := by
      rw [findConfig_eq_none_iff]
      exact fun r hr => hdis d (List.mem_cons_self d rest) r hr
    have hnext : nextVersion s = s.length + 1 := by
      rw [nextVersion_eq_maxVersion_succ, hmax]
    have hstep : runSaves s t (d :: rest)
        = runSaves (s ++ [VersionRecord.mk (s.length + 1) t d none]) t rest := by
      rw [runSaves, save_to_mongo_insert s t d hnone, hnext]
    have hseq' : (s ++ [VersionRecord.mk (s.length + 1) t d none]).map (fun r => r.version)
        = (List.range (s ++ [VersionRecord.mk (s.length + 1) t d none]).length).map (· + 1) := by
      rw [List.map_append, hseq, List.length_append]
      simp [List.range_succ]
    have hmax' : maxVersion (s ++ [VersionRecord.mk (s.length + 1) t d none])
        = (s ++ [VersionRecord.mk (s.length + 1) t d none]).length := by
      rw [maxVersion_append_singleton, hmax, List.length_append]
      simp [Nat.max_eq_right (Nat.le_succ s.length)]
    have hdis' : ∀ d' ∈ rest, ∀ r ∈ s ++ [VersionRecord.mk (s.length + 1) t d none],
        r.config ≠ d' := by
      intro d' hd' r hr
      rcases List.mem_append.mp hr with h | h
      · exact hdis d' (List.mem_cons_of_mem _ hd') r h
      · have hrd : r = VersionRecord.mk (s.length + 1) t d none := by simpa using h
        rw [hrd]
        intro hc
        have hdd : d = d' := hc
        have hne : d ∉ rest := (List.nodup_cons.mp hnd).1
        exact hne (by rwa [hdd])
    have hmain := runSaves_versions t rest (s ++ [VersionRecord.mk (s.length + 1) t d none])
      hseq' hmax' hdis' (List.nodup_cons.mp hnd).2
    rw [hstep, hmain, List.length_append]
    rw [show (s.length + [VersionRecord.mk (s.length + 1) t d none].length + rest.length)
          = s.length + (d :: rest).length by simp; omega]

/-- C1: Version numbers form a strictly increasing sequence starting at 1:
for every store state the next allocated version is `max(existing
versions) + 1` (`1` on an empty store); rollback uses the same rule for its
new record; and replaying any sequence of saves with pairwise distinct
documents from an empty store assigns versions `1, 2, ..., n`, increasing
by exactly 1 each time. -/
theorem versions_strictly_increasing :
    (∀ s : Store, nextVersion s = maxVersion s + 1) ∧
    nextVersion ([] : Store) = 1 ∧
    (∀ (s : Store) (file : Option Value) (t : Nat) (wok : Bool) (emsg : String)
       (v : Nat) (doc : VersionRecord), findVersion s v = some doc →
       (rollback_to_version true s file t wok emsg v).store =
         s ++ [⟨maxVersion s + 1, t, doc.config, some v⟩]) ∧
    (∀ (t : Nat) (docs : List Value), docs.Nodup →
       (runSaves [] t docs).map (fun r => r.version)
         = (List.range docs.length).map (· + 1)) := by
  refine ⟨nextVersion_eq_maxVersion_succ, rfl, ?_, ?_⟩
  · intro s file t wok emsg v doc h
    rw [← nextVersion_eq_maxVersion_succ]
    cases wok <;> simp [rollback_to_version, h]
  · intro t docs hnd
    have := runSaves_versions t docs [] (by simp) rfl (by simp) hnd
    simpa using this

/-- Witness for C1: two distinct documents saved into an empty store get
versions 1 and 2, and a rollback on a one-record store allocates
version 2. -/
theorem versions_strictly_increasing_witness :
    (runSaves [] 0 [Value.dict [("a", Value.int 1)], Value.dict [("a", Value.int 2)]]).map
        (fun r => r.version) = (List.range 2).map (· + 1) ∧
    (rollback_to_version true [⟨1, 0, Value.dict [], none⟩] none 5 true "" 1).store =
      [⟨1, 0, Value.dict [], none⟩, ⟨2, 5, Value.dict [], some 1⟩] :=
  ⟨versions_strictly_increasing.2.2.2 0
      [Value.dict [("a", Value.int 1)], Value.dict [("a", Value.int 2)]] (by decide),
   versions_strictly_increasing.2.2.1 [⟨1, 0, Value.dict [], none⟩] none 5 true "" 1
      ⟨1, 0, Value.dict [], none⟩ (by decide)⟩

/-- C2: A `save` of a document whose (normalized) value deep-equals the
`config` of any existing record — anywhere in history — performs no write
and surfaces that existing record (a member of the store whose config
equals the document) unchanged; saving the same document twice in a row
adds nothing on the second call, and from an empty store it leaves exactly
one persisted record. -/
theorem save_dedup_no_write :
    (∀ (s : Store) (t : Nat) (d : Value) (r : VersionRecord),
       findConfig s d = some r → save_to_mongo true s t d = (s, .dedupHit r)) ∧
    (∀ (s : Store) (d : Value) (r : VersionRecord),
       findConfig s d = some r → r.config = d ∧ r ∈ s) ∧
    (∀ (s : Store) (t1 t2 : Nat) (d : Value),
       (save_to_mongo true (save_to_mongo true s t1 d).1 t2 d).1
         = (save_to_mongo true s t1 d).1) ∧
    (∀ (t1 t2 : Nat) (d : Value),
       ((save_to_mongo true (save_to_mongo true [] t1 d).1 t2 d).1).length = 1) := by
  have htwice : ∀ (s : Store) (t1 t2 : Nat) (d : Value),
      (save_to_mongo true (save_to_mongo true s t1 d).1 t2 d).1
        = (save_to_mongo true s t1 d).1 := by
    intro s t1 t2 d
    cases hf : findConfig s d with
    | some r => simp [save_to_mongo, hf]
    | none =>
      have h1 := save_to_mongo_insert s t1 d hf
      have h2 := findConfig_append_singleton_of_none s d hf
        (VersionRecord.mk (nextVersion s) t1 d none) rfl
      rw [h1]
      simp only [save_to_mongo, if_true, h2]
  refine ⟨?_, ?_, htwice, ?_⟩
  · intro s t d r h
    exact save_to_mongo_dedup s t d r h
  · intro s d r h
    exact ⟨findConfig_some_config s d r h, findConfig_some_mem s d r h⟩
  · intro t1 t2 d
    rw [htwice [] t1 t2 d]
    have hf : findConfig [] d = none := rfl
    rw [save_to_mongo_insert [] t1 d hf]
    rfl

/-- Witness for C2: in a store whose first (non-latest) record already
holds `{a: 1}`, saving `{a: 1}` again hits dedup against that old record
and writes nothing, and a double save of `{b: 3}` into an empty store
leaves one record. -/
theorem save_dedup_no_write_witness :
    save_to_mongo true
        [VersionRecord.mk 1 0 (Value.dict [("a", Value.int 1)]) none,
         VersionRecord.mk 2 1 (Value.dict [("a", Value.int 2)]) none] 9
        (Value.dict [("a", Value.int 1)]) =
      ([VersionRecord.mk 1 0 (Value.dict [("a", Value.int 1)]) none,
        VersionRecord.mk 2 1 (Value.dict [("a", Value.int 2)]) none],
       .dedupHit (VersionRecord.mk 1 0 (Value.dict [("a", Value.int 1)]) none)) ∧
    ((save_to_mongo true (save_to_mongo true [] 0 (Value.dict [("b", Value.int 3)])).1 1
        (Value.dict [("b", Value.int 3)])).1).length = 1 :=
  ⟨save_dedup_no_write.1
      [VersionRecord.mk 1 0 (Value.dict [("a", Value.int 1)]) none,
       VersionRecord.mk 2 1 (Value.dict [("a", Value.int 2)]) none] 9
      (Value.dict [("a", Value.int 1)])
      (VersionRecord.mk 1 0 (Value.dict [("a", Value.int 1)]) none) (by decide),
   save_dedup_no_write.2.2.2 0 1 (Value.dict [("b", Value.int 3)])⟩

/-- C3: Rolling back to an existing version always inserts exactly one new
record — with no dedup check, hence also when the target's content equals
the current latest content — whose `config` is the target's `config`,
whose `rolled_back_from` is the target version, and whose version number is
`nextVersion`, the same allocation rule `save` uses. -/
theorem rollback_creates_record :
    ∀ (s : Store) (file : Option Value) (t : Nat) (wok : Bool) (emsg : String)
      (v : Nat) (doc : VersionRecord),
      findVersion s v = some doc →
      (rollback_to_version true s file t wok emsg v).store =
        s ++ [VersionRecord.mk (nextVersion s) t doc.config (some v)] := by
  intro s file t wok emsg v doc h
  cases wok <;> simp [rollback_to_version, h]

/-- Witness for C3: on a one-record store, rolling back to version 1 —
whose content equals the current latest content — still inserts a second
record with the same config, `rolled_back_from = 1` and version 2. -/
theorem rollback_creates_record_witness :
    (rollback_to_version true [VersionRecord.mk 1 0 (Value.dict [("a", Value.int 1)]) none]
        none 7 true "" 1).store =
      [VersionRecord.mk 1 0 (Value.dict [("a", Value.int 1)]) none,
       VersionRecord.mk 2 7 (Value.dict [("a", Value.int 1)]) (some 1)] :=
  rollback_creates_record [VersionRecord.mk 1 0 (Value.dict [("a", Value.int 1)]) none]
    none 7 true "" 1 (VersionRecord.mk 1 0 (Value.dict [("a", Value.int 1)]) none) (by decide)

/-- C4: Rolling back to a version absent from the store fails with the
message "Version v not found." and mutates nothing: the collection and the
on-disk file are exactly what they were, and `success` is `false`. -/
theorem rollback_missing_version :
    ∀ (s : Store) (file : Option Value) (t : Nat) (wok : Bool) (emsg : String) (v : Nat),
      findVersion s v = none →
      rollback_to_version true s file t wok emsg v =
        ⟨s, file, false, "Version " ++ toString v ++ " not found."⟩ := by
  intro s file t wok emsg v h
  simp [rollback_to_version, h]

/-- Witness for C4: rolling back to the absent version 99 on a three-record
store changes neither the collection nor the file and reports failure. -/
theorem rollback_missing_version_witness :
    rollback_to_version true
        [VersionRecord.mk 1 0 (Value.dict [("a", Value.int 1)]) none,
         VersionRecord.mk 2 1 (Value.dict [("a", Value.int 2)]) none,
         VersionRecord.mk 3 2 (Value.dict [("a", Value.int 1)]) (some 1)]
        (some (Value.dict [("a", Value.int 1)])) 9 true "boom" 99 =
      ⟨[VersionRecord.mk 1 0 (Value.dict [("a", Value.int 1)]) none,
        VersionRecord.mk 2 1 (Value.dict [("a", Value.int 2)]) none,
        VersionRecord.mk 3 2 (Value.dict [("a", Value.int 1)]) (some 1)],
       some (Value.dict [("a", Value.int 1)]), false, "Version 99 not found."⟩ :=
  rollback_missing_version
    [VersionRecord.mk 1 0 (Value.dict [("a", Value.int 1)]) none,
     VersionRecord.mk 2 1 (Value.dict [("a", Value.int 2)]) none,
     VersionRecord.mk 3 2 (Value.dict [("a", Value.int 1)]) (some 1)]
    (some (Value.dict [("a", Value.int 1)])) 9 true "boom" 99 (by decide)

/-- C5: When the file write of a rollback fails after the new record was
inserted, the record stays in the collection (nothing is removed or rolled
back), the on-disk file is unchanged, and the call reports failure
(`success = false` with the exception text) instead of success. -/
theorem rollback_write_failure :
    ∀ (s : Store) (file : Option Value) (t : Nat) (emsg : String)
      (v : Nat) (doc : VersionRecord),
      findVersion s v = some doc →
      rollback_to_version true s file t false emsg v =
        ⟨s ++ [VersionRecord.mk (nextVersion s) t doc.config (some v)],
         file, false, emsg⟩ := by
  intro s file t emsg v doc h
  simp [rollback_to_version, h]

/-- Witness for C5: a failed write during rollback to version 1 of a
two-record store leaves the freshly inserted version-3 record persisted,
the file untouched, and returns failure. -/
theorem rollback_write_failure_witness :
    rollback_to_version true
        [VersionRecord.mk 1 0 (Value.dict [("a", Value.int 1)]) none,
         VersionRecord.mk 2 1 (Value.dict [("a", Value.int 2)]) none]
        (some (Value.dict [("a", Value.int 2)])) 9 false "disk full" 1 =
      ⟨[VersionRecord.mk 1 0 (Value.dict [("a", Value.int 1)]) none,
        VersionRecord.mk 2 1 (Value.dict [("a", Value.int 2)]) none,
        VersionRecord.mk 3 9 (Value.dict [("a", Value.int 1)]) (some 1)],
       some (Value.dict [("a", Value.int 2)]), false, "disk full"⟩ :=
  rollback_write_failure
    [VersionRecord.mk 1 0 (Value.dict [("a", Value.int 1)]) none,
     VersionRecord.mk 2 1 (Value.dict [("a", Value.int 2)]) none]
    (some (Value.dict [("a", Value.int 2)])) 9 "disk full" 1
    (VersionRecord.mk 1 0 (Value.dict [("a", Value.int 1)]) none) (by decide)

/-- C6 counterexample: with the backend unavailable, the query functions
return exactly the values an available but empty store produces —
`fetch_latest_from_mongo` yields `{}` and `fetch_all_versions` yields
`[]` — so the caller receives a normal-looking value, not a distinguishable
StorageUnavailable error (`save_to_mongo` likewise only prints the error
and returns as usual). -/
theorem storage_error_indistinguishable :
    fetch_latest_from_mongo false
        [VersionRecord.mk 1 0 (Value.dict [("a", Value.int 1)]) none]
      = fetch_latest_from_mongo true [] ∧
    fetch_latest_from_mongo false
        [VersionRecord.mk 1 0 (Value.dict [("a", Value.int 1)]) none] = Value.dict [] ∧
    fetch_all_versions false
        [VersionRecord.mk 1 0 (Value.dict [("a", Value.int 1)]) none]
      = fetch_all_versions true [] := by
  refine ⟨rfl, rfl, ?_⟩
  simp [fetch_all_versions]

/-- C6 amended: every operation attempts the backend exactly once (no
internal retry), and on storage unavailability its `except` clause catches
the exception, prints it, and returns a default — the store untouched and
`None` from `save_to_mongo`, `{}` from `fetch_latest_from_mongo`, `[]` from
`fetch_all_versions` — values indistinguishable from legitimate
empty-store results, rather than a distinguishable StorageUnavailable
error. -/
theorem storage_error_swallowed :
    (∀ (s : Store) (t : Nat) (d : Value),
       save_to_mongo false s t d = (s, .storageError)) ∧
    (∀ s : Store, fetch_latest_from_mongo false s = Value.dict []) ∧
    (∀ s : Store, fetch_all_versions false s = []) :=
  ⟨fun _ _ _ => rfl, fun _ => rfl, fun _ => rfl⟩

/-- The value of field `k` in a JSON-payload mapping (`none` when the
payload is not a mapping or lacks the field). -/
def payloadField (p : Value) (k : String) : Option Value :=
  match p with
  | .dict kvs => kvs.lookup k
  | _ => none

/-- C8 counterexample: on a store whose latest record came from a rollback
(`rolled_back_from = some 1`), the payload built by
`fetch_latest_from_mongo` has no `rolled_back_from` field at all — it is
assembled from only `version`, `timestamp` and `config` (lines 104-108),
unlike the history payload of `fetch_all_versions`. -/
theorem fetch_latest_drops_provenance :
    (findLastDoc
        [VersionRecord.mk 1 0 (Value.dict [("a", Value.int 1)]) none,
         VersionRecord.mk 2 1 (Value.dict [("a", Value.int 2)]) none,
         VersionRecord.mk 3 2 (Value.dict [("a", Value.int 1)]) (some 1)]).map
        (fun r => r.rolled_back_from) = some (some 1) ∧
    payloadField
        (fetch_latest_from_mongo true
          [VersionRecord.mk 1 0 (Value.dict [("a", Value.int 1)]) none,
           VersionRecord.mk 2 1 (Value.dict [("a", Value.int 2)]) none,
           VersionRecord.mk 3 2 (Value.dict [("a", Value.int 1)]) (some 1)])
        "rolled_back_from" = none :=
  ⟨rfl, rfl⟩

/-- C8 amended: `fetch_latest_from_mongo` returns the payload of the record
with the highest version number when the store is non-empty — carrying
`version`, the ISO-rendered `timestamp` and `config` — and `{}` when the
store is empty; but the payload never contains the `rolled_back_from`
field, even when the latest record has one. -/
theorem fetch_latest_spec :
    (∀ s : Store, s ≠ [] →
       ∃ d, findLastDoc s = some d ∧ d ∈ s ∧ (∀ r ∈ s, r.version ≤ d.version) ∧
         fetch_latest_from_mongo true s =
           Value.dict [("version", Value.int d.version),
                       ("timestamp", Value.str (isoformat d.timestamp)),
                       ("config", d.config)] ∧
         payloadField (fetch_latest_from_mongo true s) "rolled_back_from" = none) ∧
    fetch_latest_from_mongo true [] = Value.dict [] := by
  refine ⟨?_, rfl⟩
  intro s hs
  obtain ⟨d, hfind, hmem, hver⟩ := findLastDoc_spec s hs
  have hpay : fetch_latest_from_mongo true s =
      Value.dict [("version", Value.int d.version),
                  ("timestamp", Value.str (isoformat d.timestamp)),
                  ("config", d.config)] := by
    simp [fetch_latest_from_mongo, hfind]
  refine ⟨d, hfind, hmem, ?_, hpay, ?_⟩
  · intro r hr
    rw [hver]
    exact version_le_maxVersion s r hr
  · rw [hpay]
    rfl

/-- Witness for C8's amended claim at the three-record store whose latest
is a rollback record. -/
theorem fetch_latest_spec_witness :
    ∃ d, findLastDoc
        [VersionRecord.mk 1 0 (Value.dict [("a", Value.int 1)]) none,
         VersionRecord.mk 2 1 (Value.dict [("a", Value.int 2)]) none,
         VersionRecord.mk 3 2 (Value.dict [("a", Value.int 1)]) (some 1)] = some d ∧
      d ∈ [VersionRecord.mk 1 0 (Value.dict [("a", Value.int 1)]) none,
           VersionRecord.mk 2 1 (Value.dict [("a", Value.int 2)]) none,
           VersionRecord.mk 3 2 (Value.dict [("a", Value.int 1)]) (some 1)] ∧
      (∀ r ∈ [VersionRecord.mk 1 0 (Value.dict [("a", Value.int 1)]) none,
              VersionRecord.mk 2 1 (Value.dict [("a", Value.int 2)]) none,
              VersionRecord.mk 3 2 (Value.dict [("a", Value.int 1)]) (some 1)],
         r.version ≤ d.version) ∧
      fetch_latest_from_mongo true
          [VersionRecord.mk 1 0 (Value.dict [("a", Value.int 1)]) none,
           VersionRecord.mk 2 1 (Value.dict [("a", Value.int 2)]) none,
           VersionRecord.mk 3 2 (Value.dict [("a", Value.int 1)]) (some 1)] =
        Value.dict [("version", Value.int d.version),
                    ("timestamp", Value.str (isoformat d.timestamp)),
                    ("config", d.config)] ∧
      payloadField
          (fetch_latest_from_mongo true
            [VersionRecord.mk 1 0 (Value.dict [("a", Value.int 1)]) none,
             VersionRecord.mk 2 1 (Value.dict [("a", Value.int 2)]) none,
             VersionRecord.mk 3 2 (Value.dict [("a", Value.int 1)]) (some 1)])
          "rolled_back_from" = none :=
  fetch_latest_spec.1
    [VersionRecord.mk 1 0 (Value.dict [("a", Value.int 1)]) none,
     VersionRecord.mk 2 1 (Value.dict [("a", Value.int 2)]) none,
     VersionRecord.mk 3 2 (Value.dict [("a", Value.int 1)]) (some 1)] (by decide)

/-- The read phase of `save_to_mongo`: the backend reads it performs before
writing — the dedup lookup (line 77) and the max-version lookup (line 83) —
as one observation of the collection state. -/
def saveReadPhase (s : Store) (d : Value) : Option VersionRecord × Nat :=
  (findConfig s d, nextVersion s)

/-- The write phase of `save_to_mongo`, acting on the results of an earlier
read phase: return on a dedup hit, otherwise `insert_one` of the record
built from the version number the read observed. -/
def saveWritePhase (s : Store) (t : Nat) (d : Value) (obs : Option VersionRecord × Nat) :
    Store × SaveOutcome :=
  match obs.1 with
  | some existing => (s, .dedupHit existing)
  | none =>
    (s ++ [VersionRecord.mk obs.2 t d none], .inserted (VersionRecord.mk obs.2 t d none))

/-- The check-then-act interleaving of two concurrent `save` calls: both
run their read phase against the same collection state, then both write. -/
def interleavedSaves (s : Store) (t : Nat) (d1 d2 : Value) :
    Store × SaveOutcome × SaveOutcome :=
  let r1 := saveReadPhase s d1
  let r2 := saveReadPhase s d2
  let w1 := saveWritePhase s t d1 r1
  let w2 := saveWritePhase w1.1 t d2 r2
  (w2.1, w1.2, w2.2)

/-- C9 counterexample: nothing serializes the allocate-and-insert sequence
— `save_to_mongo` is exactly a read phase followed by a write phase with no
transaction around them — and in the read-read-write-write interleaving of
two saves on an empty store, two distinct documents are BOTH assigned
version 1, and two equal documents BOTH insert a record, defeating dedup. -/
theorem concurrent_saves_collide :
    (interleavedSaves [] 0 (Value.dict [("a", Value.int 1)])
        (Value.dict [("a", Value.int 2)])).1 =
      [VersionRecord.mk 1 0 (Value.dict [("a", Value.int 1)]) none,
       VersionRecord.mk 1 0 (Value.dict [("a", Value.int 2)]) none] ∧
    (interleavedSaves [] 0 (Value.dict [("a", Value.int 1)])
        (Value.dict [("a", Value.int 1)])).1 =
      [VersionRecord.mk 1 0 (Value.dict [("a", Value.int 1)]) none,
       VersionRecord.mk 1 0 (Value.dict [("a", Value.int 1)]) none] ∧
    (Value.dict [("a", Value.int 1)]) ≠ (Value.dict [("a", Value.int 2)]) :=
  ⟨rfl, rfl, by decide⟩

/-- C9 amended: the code does not serialize `save`: it is precisely the
composition of a read phase (dedup check and max-version read) and a write
phase acting on that read, so when two saves interleave read-read-write-
write, both are assigned the same version number (and equal contents
produce two records); distinct consecutive versions are guaranteed only
when the saves run serially. -/
theorem save_not_serialized :
    (∀ (s : Store) (t : Nat) (d : Value),
       save_to_mongo true s t d = saveWritePhase s t d (saveReadPhase s d)) ∧
    (∀ (s : Store) (t : Nat) (d1 d2 : Value),
       findConfig s d1 = none → findConfig s d2 = none →
       (interleavedSaves s t d1 d2).1 =
         s ++ [VersionRecord.mk (nextVersion s) t d1 none]
           ++ [VersionRecord.mk (nextVersion s) t d2 none]) ∧
    (∀ (t : Nat) (d1 d2 : Value), d1 ≠ d2 →
       (runSaves [] t [d1, d2]).map (fun r => r.version) = [1, 2]) := by
  refine ⟨?_, ?_, ?_⟩
  · intro s t d
    cases hf : findConfig s d <;>
      simp [save_to_mongo, saveWritePhase, saveReadPhase, hf]
  · intro s t d1 d2 h1 h2
    simp [interleavedSaves, saveReadPhase, saveWritePhase, h1, h2]
  · intro t d1 d2 hne
    have h2 : findConfig [VersionRecord.mk 1 t d1 none] d2 = none := by
      rw [findConfig_eq_none_iff]
      intro r hr
      have hr1 : r = VersionRecord.mk 1 t d1 none := by simpa using hr
      rw [hr1]
      exact hne
    have e1 := save_to_mongo_insert [] t d1 rfl
    have e2 := save_to_mongo_insert [VersionRecord.mk 1 t d1 none] t d2 h2
    simp only [runSaves, e1]
    simp only [show ([] : Store) ++ [VersionRecord.mk (nextVersion []) t d1 none]
        = [VersionRecord.mk 1 t d1 none] from rfl, e2]
    rfl

/-- Witness for C9's amended claim: the bad interleaving and the serial
run, both on the empty store with the two concrete documents. -/
theorem save_not_serialized_witness :
    (interleavedSaves [] 0 (Value.dict [("a", Value.int 1)])
        (Value.dict [("a", Value.int 2)])).1 =
      [] ++ [VersionRecord.mk (nextVersion []) 0 (Value.dict [("a", Value.int 1)]) none]
         ++ [VersionRecord.mk (nextVersion []) 0 (Value.dict [("a", Value.int 2)]) none] ∧
    (runSaves [] 0 [Value.dict [("a", Value.int 1)], Value.dict [("a", Value.int 2)]]).map
        (fun r => r.version) = [1, 2] :=
  ⟨save_not_serialized.2.1 [] 0 (Value.dict [("a", Value.int 1)])
      (Value.dict [("a", Value.int 2)]) rfl rfl,
   save_not_serialized.2.2 0 (Value.dict [("a", Value.int 1)])
      (Value.dict [("a", Value.int 2)]) (by decide)⟩

/-- C10: A file change whose content parses to the empty top-level mapping
`{}` causes no store action: `read_config` accepts the mapping, but the
handler guards on Python truthiness (`if data:`) rather than on being a
mapping, so the empty — yet valid — document is dropped exactly like a
malformed one (`None`): no normalization, no save, no new version. -/
theorem on_modified_drops_empty_dict :
    ∀ (available : Bool) (s : Store) (t : Nat),
      on_modified available true (some (Value.dict [])) s t = (s, none) ∧
      on_modified available true (some (Value.dict [])) s t
        = on_modified available true none s t := by
  intro available s t
  exact ⟨rfl, rfl⟩
